import Mathlib

/-!
Shallow embedding of the Basalt digital-garden aggregator (TypeScript) and
proofs about it.  JavaScript strings are modelled as Lean `String`/`List Char`,
JS numbers on the small integral/decimal values occurring here as `ℚ`/`Nat`/`Int`,
`Date` values by their epoch-milliseconds timestamp together with the
(timezone-resolved) calendar year, and fallible/asynchronous calls by explicit
`Option`/`Except` parameters.  Each definition is translated from the source
file named in its doc comment.
-/

namespace Basalt

/-- JS truthiness of a `string | undefined` value: `undefined` and `""` are falsy. -/
def jsTruthy : Option String → Bool
  | some s => s != ""
  | none => false

/-- JS `a || b` for `string | undefined` values: falsy `a` falls through to `b`. -/
def jsOr (a : Option String) (b : String) : String :=
  match a with
  | some s => if s = "" then b else s
  | none => b

/-- Does `pat` occur as a contiguous run inside the list? -/
def strContainsGo (pat : List Char) : List Char → Bool
  | [] => pat.isEmpty
  | c :: rest => pat.isPrefixOf (c :: rest) || strContainsGo pat rest

/-- JS `String.prototype.includes` (substring containment). -/
def strContains (s pat : String) : Bool :=
  strContainsGo pat.toList s.toList

/-! ## Environment resolution (`src/lib/api/env.ts`) -/

/-- A JavaScript value as far as `setRuntimeEnv` observes it: a string, or
anything that is not a string. -/
inductive JSVal where
  | str : String → JSVal
  | nonstr : JSVal
deriving DecidableEq

/-- Embedding of `setRuntimeEnv` (env.ts:15-22): copies only the string-valued entries of the
injected object into the runtime tier. -/
def setRuntimeEnv (env : String → Option JSVal) : String → Option String :=
  fun k =>
    match env k with
    | some (JSVal.str s) => some s
    | _ => none

/-- Embedding of `getEnv` (env.ts:31-48).  Each tier (`runtimeEnv`, `import.meta.env`,
`process.env`) may itself be absent (`none`), and a tier's value for the key is
used only when truthy (a non-empty string). -/
def getEnv (runtimeEnv metaEnv procEnv : Option (String → Option String))
    (key : String) : Option String :=
  let r := runtimeEnv.bind (fun f => f key)
  if jsTruthy r then r
  else
    let m := metaEnv.bind (fun f => f key)
    if jsTruthy m then m
    else
      let p := procEnv.bind (fun f => f key)
      if jsTruthy p then p
      else none

/-- Modelled from the spec: the value of the highest-priority tier holding a
non-empty string, skipping empty/absent tiers. -/
def firstNonEmptyTier : List (Option String) → Option String
  | [] => none
  | v :: rest => if jsTruthy v then v else firstNonEmptyTier rest

/-- Witness input: an injected runtime object holding a non-string at `"K"`. -/
def envWitnessRaw : String → Option JSVal :=
  fun k => if k = "K" then some JSVal.nonstr else none

/-- Witness input: a build-time tier holding `"meta"` at `"K"`. -/
def envWitnessMeta : String → Option String :=
  fun k => if k = "K" then some "meta" else none

/-! ## Reading time (`src/lib/api/notion.ts`, `calculateReadingTime`) -/

/-- A CJK ideograph as matched by the source regex `[一-龥]`. -/
def isCJK (c : Char) : Bool :=
  0x4e00 ≤ c.toNat && c.toNat ≤ 0x9fa5

/-- JS regex `\s` character class. -/
def jsSpace (c : Char) : Bool :=
  c = ' ' || c = '\t' || c = '\n' || c = '\u000B' || c = '\u000C' || c = '\u000D' ||
  c = '\u00A0' || c = '\u1680' || (0x2000 ≤ c.toNat && c.toNat ≤ 0x200A) ||
  c = '\u2028' || c = '\u2029' || c = '\u202F' || c = '\u205F' ||
  c = '\u3000' || c = '\uFEFF'

/-- Number of non-empty pieces of `split(/\s+/)`, i.e. the number of maximal
runs of non-whitespace characters.  The boolean records whether the previous
character was inside such a run. -/
def countWordsGo : List Char → Bool → Nat
  | [], _ => 0
  | c :: rest, inWord =>
    if jsSpace c then countWordsGo rest false
    else (if inWord then 0 else 1) + countWordsGo rest true

/-- CJK-ideograph count of a content string (notion.ts:464). -/
def cjkCount (content : String) : Nat :=
  (content.toList.filter isCJK).length

/-- Space-delimited word count of a content string with CJK ideographs removed
(notion.ts:467-470). -/
def wordCount (content : String) : Nat :=
  countWordsGo (content.toList.filter (fun c => !(isCJK c))) false

/-- Embedding of `calculateReadingTime` (notion.ts:459-475): ceil of
`chineseChars/400 + words/200`, floored at 1 minute. -/
def calculateReadingTime (content : String) : Nat :=
  let chineseChars := cjkCount content
  let words := wordCount content
  let readingTime := (⌈(chineseChars : ℚ) / 400 + (words : ℚ) / 200⌉).toNat
  max 1 readingTime

/-- 800 CJK ideographs and nothing else. -/
def cjk800 : String := String.mk (List.replicate 800 '中')

/-- 50 space-delimited non-CJK words. -/
def words50 : String := String.intercalate " " (List.replicate 50 "hello")

/-! ## Image proxy (`src/pages/api/proxy-image.ts`) -/

/-- The observable part of an upstream `fetch` response. -/
structure FetchResponse where
  status : Nat
  contentType : Option String
  body : List Nat
deriving DecidableEq

/-- Semantics of `Response.ok`: status in the half-open range 200..300. -/
def FetchResponse.ok (r : FetchResponse) : Bool :=
  decide (200 ≤ r.status) && decide (r.status < 300)

/-- A response body: text for error branches, raw bytes for a proxied image. -/
inductive RespBody where
  | text : String → RespBody
  | bytes : List Nat → RespBody
deriving DecidableEq

/-- The observable part of the `Response` built by the endpoint. -/
structure HttpResponse where
  status : Nat
  body : RespBody
  contentType : Option String
  cacheControl : Option String
deriving DecidableEq

/-- Embedding of `GET` of `proxy-image.ts` (lines 9-47).  `urlParam` is the `url` query
parameter (`none` when absent); `fetchFn` is the upstream fetch, `none` meaning
the fetch promise rejected. -/
def proxyImageGET (urlParam : Option String)
    (fetchFn : String → Option FetchResponse) : HttpResponse :=
  match urlParam with
  | none => ⟨400, .text "Missing url parameter", none, none⟩
  | some imageUrl =>
    if imageUrl = "" then ⟨400, .text "Missing url parameter", none, none⟩
    else if !(strContains imageUrl "doubanio.com") then
      ⟨403, .text "Only doubanio.com images are allowed", none, none⟩
    else
      match fetchFn imageUrl with
      | none => ⟨500, .text "Error fetching image", none, none⟩
      | some r =>
        if !r.ok then ⟨r.status, .text "Failed to fetch image", none, none⟩
        else ⟨200, .bytes r.body, some (r.contentType.getD "image/jpeg"),
              some "public, max-age=86400"⟩

/-- The remainder of the character list after the first `://`. -/
def afterSchemeSep : List Char → Option (List Char)
  | ':' :: '/' :: '/' :: rest => some rest
  | _ :: rest => afterSchemeSep rest
  | [] => none

/-- Characters terminating the host component of a URL. -/
def isHostEnd (c : Char) : Bool :=
  c = '/' || c = ':' || c = '?' || c = '#'

/-- Hostname of a URL string (for stating what the allow-listed *origin* would
be, which the endpoint does not actually compute). -/
def hostOf (url : String) : Option String :=
  (afterSchemeSep url.toList).map
    (fun cs => String.mk (cs.takeWhile (fun c => !(isHostEnd c))))

/-- Modelled from the spec: a host belonging to the allow-listed external
origin doubanio.com. -/
def allowedImageHost (h : String) : Bool :=
  h == "doubanio.com" || (".doubanio.com".toList).isSuffixOf h.toList

/-- A URL whose origin is not doubanio.com but whose path mentions it. -/
def c1BadUrl : String := "https://evil.example/doubanio.com"

/-- An upstream that answers 200 with a 3-byte image for every URL. -/
def c1Fetch : String → Option FetchResponse :=
  fun _ => some ⟨200, some "image/jpeg", [1, 2, 3]⟩

/-- A genuinely doubanio-hosted image URL. -/
def c1GoodUrl : String := "https://img1.doubanio.com/view/photo.jpg"

/-- A non-empty URL mentioning doubanio.com nowhere. -/
def c1OtherUrl : String := "https://example.com/x.jpg"

/-! ## Durable KV cache (`src/lib/api/rss.ts` KV wrapper, `withKVCache` et al.) -/

/-- One stored KV entry: Cloudflare KV `put` with `expirationTtl` gives the
entry an absolute expiry time. -/
structure KVEntry (V : Type) where
  key : String
  value : V
  expiresAt : Nat

/-- The durable key-value namespace. -/
structure KVStore (V : Type) where
  entries : List (KVEntry V)

/-- Raw namespace lookup at time `now`: an entry is visible while
`now < expiresAt`. -/
def kvLookup {V : Type} (now : Nat) (st : KVStore V) (key : String) : Option V :=
  match st.entries.find? (fun e => e.key == key) with
  | some e => if now < e.expiresAt then some e.value else none
  | none => none

/-- Embedding of `kvGet` (rss.ts:853-868): `none` when the namespace is
unavailable, the read fails (error caught, treated as a miss), the key is
absent/expired, or the stored value is JS-falsy (`if (!data) return
{ data: null }`, rss.ts:859).  `falsy` is the JS truthiness of the JSON-parsed
value of type `V`; `reviveDates` only rebuilds `Date` objects and is the
identity on the modelled value. -/
def kvGet {V : Type} (falsy : V → Bool) (avail getFails : Bool) (now : Nat)
    (st : KVStore V) (key : String) : Option V :=
  if avail && !getFails then
    match kvLookup now st key with
    | some v => if falsy v then none else some v
    | none => none
  else none

/-- Embedding of `kvSet` (rss.ts:900-913): a `put` with TTL replacing any entry
for the key; unavailability or a put failure leaves the store unchanged (the
error is caught, not propagated). -/
def kvSet {V : Type} (avail putFails : Bool) (now ttl : Nat) (st : KVStore V)
    (key : String) (v : V) : KVStore V :=
  if avail && !putFails then
    ⟨⟨key, v, now + ttl⟩ :: st.entries.filter (fun e => e.key != key)⟩
  else st

/-- Embedding of `kvDelete` (rss.ts:918-927). -/
def kvDelete {V : Type} (avail delFails : Bool) (st : KVStore V)
    (key : String) : KVStore V :=
  if avail && !delFails then ⟨st.entries.filter (fun e => e.key != key)⟩ else st

/-- Result of one `withKVCache` call: the returned value, how many times the
producer ran, and the store after the (non-blocking) write-back settles. -/
structure CacheCallResult (V : Type) where
  result : V
  fetcherCalls : Nat
  store : KVStore V

/-- Embedding of `withKVCache` (rss.ts:932-959).  The producer is modelled by
the value it would return; `fetcherCalls` counts its invocations. -/
def withKVCache {V : Type} (falsy : V → Bool) (avail getFails putFails : Bool)
    (now ttl : Nat) (st : KVStore V) (key : String) (producerValue : V) :
    CacheCallResult V :=
  if !avail then ⟨producerValue, 1, st⟩
  else
    match kvGet falsy avail getFails now st key with
    | some v => ⟨v, 0, st⟩
    | none => ⟨producerValue, 1, kvSet avail putFails now ttl st key producerValue⟩

/-- JS truthiness of a number value: `0` (and `NaN`) is falsy. -/
def jsNumberFalsy : Nat → Bool := fun v => v == 0

/-! ## Douban RSS parsing (`src/lib/api/rss.ts`) -/

/-- A JS `Date`, modelled by its `getTime()` millisecond timestamp and its
(timezone-resolved) `getFullYear()` value. -/
structure JSDate where
  time : Int
  year : Int
deriving DecidableEq

/-- The rating regex character class `[★☆]`. -/
def isStarChar (c : Char) : Bool :=
  c = '★' || c = '☆'

/-- Is the position at the head of `l` a JS multiline `$` position (end of
input, or just before a line terminator)? -/
def isLineEndPos : List Char → Bool
  | [] => true
  | c :: _ => c = '\n' || c = '\r' || c = '\u2028' || c = '\u2029'

/-- Can `\s*$` match starting at this position (consume zero or more
whitespace characters, then reach a `$` position)? -/
def wsThenLineEnd : List Char → Bool
  | [] => true
  | c :: rest => isLineEndPos (c :: rest) || (jsSpace c && wsThenLineEnd rest)

/-- First alternative of the star regex, `推荐[：:]\s*([★☆]{1,5})`, tried at
this position; returns the captured star group.  `\s` and `[★☆]` are disjoint,
so the greedy `\s*` never backtracks into the star group. -/
def starAlt1At : List Char → Option (List Char)
  | '推' :: '荐' :: c :: rest =>
    if c = '：' || c = ':' then
      let afterWs := rest.dropWhile jsSpace
      let stars := (afterWs.takeWhile isStarChar).take 5
      if stars.isEmpty then none else some stars
    else none
  | _ => none

/-- Backtracking loop for `([★☆]{1,5})\s*$`: try star-group lengths from `j`
down to 1 (the greedy order), accepting the first whose remainder admits
`\s*$`. -/
def starAlt2Try (l run : List Char) : Nat → Option (List Char)
  | 0 => none
  | j + 1 =>
    if wsThenLineEnd (l.drop (j + 1)) then some (run.take (j + 1))
    else starAlt2Try l run j

/-- Second alternative of the star regex, `([★☆]{1,5})\s*$`, tried at this
position. -/
def starAlt2At (l : List Char) : Option (List Char) :=
  let run := l.takeWhile isStarChar
  starAlt2Try l run (min run.length 5)

/-- Leftmost match of `/推荐[：:]\s*([★☆]{1,5})|([★☆]{1,5})\s*$/m`
(rss.ts:170), returning the matched star group (`starMatch[1] || starMatch[2]`,
whichever alternative matched). -/
def starSearch : List Char → Option (List Char)
  | [] => none
  | c :: rest =>
    match starAlt1At (c :: rest) with
    | some s => some s
    | none =>
      match starAlt2At (c :: rest) with
      | some s => some s
      | none => starSearch rest

/-- Number of filled stars `★` in a star group (rss.ts:174). -/
def countFilledStars (stars : List Char) : Nat :=
  (stars.filter (fun c => c == '★')).length

/-- ASCII digit test for the `\d` class. -/
def isDigitChar (c : Char) : Bool :=
  '0' ≤ c && c ≤ '9'

/-- Numeric value of an ASCII digit. -/
def digitVal (c : Char) : Nat :=
  c.toNat - '0'.toNat

/-- Tail of the numeric-rating regex after group 1: `\s*[/／]\s*(10|5)`, the
`10` alternative tried before `5`. -/
def numTail (l : List Char) : Option Nat :=
  match l.dropWhile jsSpace with
  | c :: rest =>
    if c = '/' || c = '／' then
      match rest.dropWhile jsSpace with
      | '1' :: '0' :: _ => some 10
      | '5' :: _ => some 5
      | _ => none
    else none
  | [] => none

/-- The numeric-rating regex `(\d(?:\.\d)?)\s*[/／]\s*(10|5)` (rss.ts:181)
tried at this position: greedy optional fraction first, backtracking to the
fraction-less reading if the tail then fails.  Returns `parseFloat` of group 1
and `parseInt` of group 2. -/
def numAt : List Char → Option (ℚ × Nat)
  | d :: rest =>
    if isDigitChar d then
      match rest with
      | '.' :: d2 :: rest2 =>
        if isDigitChar d2 then
          match numTail rest2 with
          | some den => some ((digitVal d : ℚ) + (digitVal d2 : ℚ) / 10, den)
          | none => (numTail rest).map (fun den => ((digitVal d : ℚ), den))
        else (numTail rest).map (fun den => ((digitVal d : ℚ), den))
      | _ => (numTail rest).map (fun den => ((digitVal d : ℚ), den))
    else none
  | [] => none

/-- Leftmost match of the numeric-rating regex. -/
def numSearch : List Char → Option (ℚ × Nat)
  | [] => none
  | c :: rest =>
    match numAt (c :: rest) with
    | some r => some r
    | none => numSearch rest

/-- The fixed Chinese rating vocabulary (rss.ts:190-196), in insertion order. -/
def wordRatings : List (String × Nat) :=
  [("力荐", 5), ("推荐", 4), ("还行", 3), ("较差", 2), ("很差", 1)]

/-- First vocabulary word contained in the body (rss.ts:197-203). -/
def wordSearch (content : String) : Option Nat :=
  (wordRatings.find? (fun p => strContains content p.1)).map (fun p => p.2)

/-- JS truthiness of the mutable `rating` variable (`number | undefined`):
`undefined` and `0` are falsy. -/
def ratingTruthy : Option ℚ → Bool
  | some q => q != 0
  | none => false

/-- Stage (a) rating by itself: the filled-star count of the star-glyph match,
if any. -/
def starStageRating (content : String) : Option ℚ :=
  match starSearch content.toList with
  | some stars => some (countFilledStars stars : ℚ)
  | none => none

/-- Stage (b) rating by itself: the parsed numerator of the numeric match, if
any. -/
def numStageRating (content : String) : Option ℚ :=
  (numSearch content.toList).map Prod.fst

/-- Embedding of the rating-extraction chain of `parseDoubanItem`
(rss.ts:165-204): star glyphs, then (when `rating` is still falsy) the numeric
pattern, then (when still falsy) the word vocabulary; each mutation of
`(rating, maxRating)` is threaded explicitly. -/
def extractRating (content : String) : Option ℚ × Option ℚ :=
  let cs := content.toList
  let s1 : Option ℚ × Option ℚ :=
    match starSearch cs with
    | some stars => (some (countFilledStars stars : ℚ), some 5)
    | none => (none, none)
  let s2 :=
    if ratingTruthy s1.1 then s1
    else
      match numSearch cs with
      | some (v, den) => (some v, some (den : ℚ))
      | none => s1
  if ratingTruthy s2.1 then s2
  else
    match wordSearch content with
    | some score => (some (score : ℚ), some 5)
    | none => s2

/-- The global tag-stripping replace `replace(/<[^>]+>/g, '')` as a one-pass
scanner.  The accumulator holds (reversed) the `<` and subsequent non-`>`
characters of a candidate tag; on `>` the candidate is dropped when it has at
least one inner character (`[^>]+`), else emitted verbatim; a candidate still
open at end of input is emitted verbatim. -/
def stripTagsGo : List Char → List Char → List Char
  | [], pending => pending.reverse
  | c :: rest, [] =>
    if c = '<' then stripTagsGo rest [c]
    else c :: stripTagsGo rest []
  | c :: rest, pending =>
    if c = '>' then
      if 2 ≤ pending.length then stripTagsGo rest []
      else pending.reverse ++ '>' :: stripTagsGo rest []
    else stripTagsGo rest (c :: pending)

/-- HTML-tag stripping used for the `content` fallback (rss.ts:127). -/
def stripTags (s : String) : String :=
  String.mk (stripTagsGo s.toList [])

/-- Status keywords of the Douban feed (rss.ts:72-79), in insertion order. -/
def STATUS_KEYWORDS : List (String × List String) :=
  [("reading", ["在读", "reading"]),
   ("watched", ["看过", "watched", "看过"]),
   ("watching", ["在看", "watching"]),
   ("listening", ["在听", "listening"]),
   ("wantRead", ["想读", "want to read"]),
   ("wantWatch", ["想看", "want to watch"])]

/-- Every status keyword, flattened. -/
def allStatusKeywords : List String :=
  (STATUS_KEYWORDS.map Prod.snd).flatten

/-- Status detection of `parseDoubanItem` (rss.ts:147-163): the loop over
`STATUS_KEYWORDS` has no outer break, so each category containing a keyword of
the title overwrites `status`; the last matching category wins, `"done"` when
none matches. -/
def detectStatus (title : String) : String :=
  STATUS_KEYWORDS.foldl
    (fun st p => if p.2.any (fun kw => strContains title kw) then p.1 else st)
    "done"

/-- A feed item as normalized by `fetchAndParseRSS` (rss.ts:52-63); the
`pubDate` string is modelled by the `Date` it parses to. -/
structure RSSItem where
  title : Option String
  link : Option String
  guid : Option String
  content : Option String
  description : Option String
  contentSnippet : Option String
  pubDate : JSDate
deriving DecidableEq

/-- The fields of `parseDoubanItem`'s result consumed by the aggregation
logic.  Title cleaning, media type, cover and review extraction are not
modelled (no claim mentions them); the source never actually returns `null`. -/
structure ParsedDouban where
  status : String
  rating : Option ℚ
  maxRating : Option ℚ
  date : JSDate
deriving DecidableEq

/-- Embedding of `parseDoubanItem` (rss.ts:114-232) on the modelled fields. -/
def parseDoubanItem (item : RSSItem) : ParsedDouban :=
  let title := jsOr item.title ""
  let rawContent := jsOr item.content (jsOr item.description "")
  let content := jsOr item.contentSnippet (stripTags rawContent)
  let rm := extractRating content
  { status := detectStatus title, rating := rm.1, maxRating := rm.2,
    date := item.pubDate }

/-- The three-valued status taxonomy of `MediaMetadata.status`. -/
inductive MediaStatus where
  | completed
  | in_progress
  | wishlist
deriving DecidableEq

/-- Status bucketing of `fetchDoubanFeed` (rss.ts:257-261). -/
def bucketStatus (s : String) : MediaStatus :=
  if s = "reading" || s = "watching" || s = "listening" then .in_progress
  else if strContains s "want" then .wishlist
  else .completed

/-- The `metadata.status` placed on the entity produced for a feed item. -/
def doubanMetadataStatus (item : RSSItem) : MediaStatus :=
  bucketStatus (parseDoubanItem item).status

/-- A currently-consuming entry, restricted to the modelled fields (`type`,
`date`, `url`); `mediaType`, `title` and `cover` are not modelled. -/
structure CurrentItem where
  type : String
  date : JSDate
  url : Option String
deriving DecidableEq

/-- The `typeMap` lookup with its `|| 'reading'` fallback (rss.ts:307-314). -/
def typeMap (s : String) : String :=
  if s = "reading" then "reading"
  else if s = "watching" then "watching"
  else if s = "listening" then "listening"
  else "reading"

/-- One loop iteration's decision in `getCurrentItems` (rss.ts:301-321): the
item contributes an entry iff its parsed status is in progress. -/
def toCurrentItem (item : RSSItem) : Option CurrentItem :=
  let p := parseDoubanItem item
  if p.status = "reading" || p.status = "watching" || p.status = "listening" then
    some ⟨typeMap p.status, p.date, item.link⟩
  else none

/-- The `getCurrentItems` loop with its post-push `length >= 5` break
(rss.ts:299-325). -/
def getCurrentItemsGo : List RSSItem → List CurrentItem → List CurrentItem
  | [], acc => acc
  | it :: rest, acc =>
    match toCurrentItem it with
    | some c =>
      if 5 ≤ (acc ++ [c]).length then acc ++ [c]
      else getCurrentItemsGo rest (acc ++ [c])
    | none =>
      if 5 ≤ acc.length then acc
      else getCurrentItemsGo rest acc

/-- Embedding of `getCurrentItems` (rss.ts:290-332) after a successful fetch
of `items`. -/
def getCurrentItems (items : List RSSItem) : List CurrentItem :=
  getCurrentItemsGo items []

/-- The body of the C2 counterexample: an all-empty star group anchored at a
line end, followed by a numeric 8/10 rating. -/
def c2Body : String := "☆☆☆\n8/10"

/-- A feed item whose title marks it as currently being read. -/
def rssItemReading : RSSItem :=
  { title := some "最近在读: 三体", link := none, guid := none, content := none,
    description := none, contentSnippet := none, pubDate := ⟨0, 1970⟩ }

/-- A feed item whose title marks it as want-to-read. -/
def rssItemWant : RSSItem :=
  { title := some "想读 某书", link := none, guid := none, content := none,
    description := none, contentSnippet := none, pubDate := ⟨0, 1970⟩ }

/-- A feed item whose title carries no status keyword. -/
def rssItemPlain : RSSItem :=
  { title := some "随笔一篇", link := none, guid := none, content := none,
    description := none, contentSnippet := none, pubDate := ⟨0, 1970⟩ }

/-- A body carrying a star rating behind the `推荐:` anchor. -/
def c2StarBody : String := "推荐: ★★★★"

/-- A body carrying only a numeric rating. -/
def c2NumBody : String := "评分 4/5"

/-- A body whose numeric match is the falsy `0/5`, followed by a vocabulary
word. -/
def c2WordBody : String := "0/5 较差"

/-! ## Unified aggregation (`src/lib/api/index.ts`) and mock data -/

/-- The feed item kinds of `src/lib/types.ts` (`FeedItemType`). -/
inductive EntityKind where
  | article
  | microblog
  | media
  | photo
deriving DecidableEq

/-- A unified feed entity, restricted to the fields the aggregation, sorting
and archive logic consume (`id`, `type`, `title`, `date`, `url`); `content`,
`source`, `image` and `metadata` are carried opaquely by that logic and are
not modelled. -/
structure FeedItem where
  id : String
  type : EntityKind
  title : Option String
  date : JSDate
  url : Option String
deriving DecidableEq

/-- The static fallback dataset `mockFeedItems` (mock-data.ts:33-275),
projected to the modelled fields; `new Date('YYYY-MM-DD')` parses to UTC
midnight of that day. -/
def mockFeedItems : List FeedItem :=
  [⟨"article-1", .article, some "用 Notion 搭建第二大脑", ⟨1739577600000, 2025⟩,
      some "/articles/building-second-brain"⟩,
   ⟨"article-2", .article, some "慢读的艺术", ⟨1739145600000, 2025⟩,
      some "/articles/slow-reading"⟩,
   ⟨"article-3", .article, some "为可读性而设计", ⟨1738022400000, 2025⟩,
      some "/articles/designing-readability"⟩,
   ⟨"article-4", .article, some "我的 2024 写作工作流", ⟨1734652800000, 2024⟩,
      some "/articles/writing-workflow-2024"⟩,
   ⟨"micro-1", .microblog, none, ⟨1739836800000, 2025⟩, none⟩,
   ⟨"micro-2", .microblog, none, ⟨1739664000000, 2025⟩, none⟩,
   ⟨"micro-3", .microblog, none, ⟨1739318400000, 2025⟩, none⟩,
   ⟨"media-1", .media, some "设计心理学", ⟨1739491200000, 2025⟩, none⟩,
   ⟨"media-2", .media, some "奥本海默", ⟨1738972800000, 2025⟩, none⟩,
   ⟨"photo-1", .photo, some "金色黄昏", ⟨1739750400000, 2025⟩, none⟩,
   ⟨"photo-2", .photo, some "街头", ⟨1739577600000, 2025⟩, none⟩,
   ⟨"article-5", .article, some "为什么我切换到了 SolidJS", ⟨1731628800000, 2024⟩,
      some "/articles/switching-to-solidjs"⟩,
   ⟨"article-6", .article, some "Web 设计中的极简主义", ⟨1729382400000, 2024⟩,
      some "/articles/minimalism-web-design"⟩,
   ⟨"article-7", .article, some "使用无聊技术的理由", ⟨1725494400000, 2024⟩,
      some "/articles/boring-technology"⟩]

/-- Comparator `(a, b) => b.date.getTime() - a.date.getTime()` as a total
preorder: descending by timestamp. -/
def feedSortLE (a b : FeedItem) : Bool :=
  decide (b.date.time ≤ a.date.time)

/-- JS `Array.prototype.sort` with the descending-date comparator.  ES2019
sort is stable, and a stable sort for a total preorder is unique, so the
stable `List.mergeSort` models it exactly. -/
def sortFeedByDateDesc (l : List FeedItem) : List FeedItem :=
  l.mergeSort feedSortLE

/-- Which adapters are configured (index.ts:51-61): `shouldUseRealAPI`,
`shouldUseDouban`, `shouldUseTelegram`. -/
structure AdapterConfig where
  notion : Bool
  douban : Bool
  telegram : Bool
deriving DecidableEq

/-- Observable outcome of one `getFeedItems` call: the returned list, whether
any adapter was invoked (network used), and the value written to the
in-process cache (`none` when `feedItemsCache.set` did not run). -/
structure FeedCallResult where
  items : List FeedItem
  adaptersInvoked : Bool
  newCache : Option (List FeedItem)
deriving DecidableEq

/-- Embedding of `getFeedItems` (index.ts:66-123).  `cached` is what
`feedItemsCache.get()` returns; each configured adapter's settled promise is
an `Except`, `.error` meaning the promise rejected (`Promise.all` then rejects
and the catch returns the mock dataset). -/
def getFeedItems (cached : Option (List FeedItem)) (useMock : Bool)
    (cfg : AdapterConfig)
    (notionRes doubanRes telegramRes : Except Unit (List FeedItem)) :
    FeedCallResult :=
  match cached with
  | some l => ⟨l, false, none⟩
  | none =>
    if useMock || (!cfg.notion && !cfg.douban && !cfg.telegram) then
      ⟨mockFeedItems, false, none⟩
    else
      let results : List (Except Unit (List FeedItem)) :=
        (if cfg.notion then [notionRes] else []) ++
        (if cfg.douban then [doubanRes] else []) ++
        (if cfg.telegram then [telegramRes] else [])
      if results.any (fun r => !r.isOk) then ⟨mockFeedItems, true, none⟩
      else
        let allItems :=
          sortFeedByDateDesc (results.filterMap Except.toOption).flatten
        ⟨allItems, true, some allItems⟩

/-- A configuration with only the media-log adapter enabled. -/
def feedCfgDoubanOnly : AdapterConfig := ⟨false, true, false⟩

/-- Witness item with timestamp 100. -/
def wItemA : FeedItem := ⟨"a", .media, none, ⟨100, 1970⟩, none⟩

/-- Witness item with timestamp 200. -/
def wItemB : FeedItem := ⟨"b", .media, none, ⟨200, 1970⟩, none⟩

/-! ## Archive grouping (`mock-data.ts`, `getArchiveGroups`) -/

/-- An archive entry (`ArchiveItem` of types.ts). -/
structure ArchiveItem where
  id : String
  title : String
  date : JSDate
  type : EntityKind
  url : String
deriving DecidableEq

/-- A year group (`ArchiveGroup` of types.ts). -/
structure ArchiveGroup where
  year : Int
  items : List ArchiveItem
  count : Nat
deriving DecidableEq

/-- The filter `item.type === 'article' && item.title` (mock-data.ts:345):
articles with a truthy (present, non-empty) title. -/
def isTitledArticle (it : FeedItem) : Bool :=
  it.type == EntityKind.article && jsTruthy it.title

/-- The per-item projection of mock-data.ts:361-367, with the
`item.url || `/articles/id`` fallback. -/
def toArchiveItem (it : FeedItem) : ArchiveItem :=
  ⟨it.id, it.title.getD "", it.date, it.type, jsOr it.url ("/articles/" ++ it.id)⟩

/-- One step of the grouping loop (mock-data.ts:349-355): a JS `Map` keeps
keys in insertion order, and the item is pushed onto its year's list. -/
def addToGroups (acc : List (Int × List FeedItem)) (it : FeedItem) :
    List (Int × List FeedItem) :=
  if acc.any (fun p => p.1 == it.date.year) then
    acc.map (fun p => if p.1 == it.date.year then (p.1, p.2 ++ [it]) else p)
  else acc ++ [(it.date.year, [it])]

/-- Comparator `(a, b) => b.year - a.year` as a total preorder. -/
def groupLE (a b : ArchiveGroup) : Bool :=
  decide (b.year ≤ a.year)

/-- Embedding of `getArchiveGroups` (mock-data.ts:340-371): filter to titled
articles, sort by date descending, group by year in first-appearance order,
project, then sort groups by year descending. -/
def getArchiveGroups (items : List FeedItem) : List ArchiveGroup :=
  let articles := sortFeedByDateDesc (items.filter isTitledArticle)
  let groups := articles.foldl addToGroups []
  (groups.map (fun p => (⟨p.1, p.2.map toArchiveItem, p.2.length⟩ : ArchiveGroup))).mergeSort
    groupLE

/-- The invariant maintained by the grouping fold over the already-processed
prefix: year keys are distinct; every group is a non-empty sublist of the
processed items, all of its year; and the keys are exactly the processed
years. -/
def GroupsInv (processed : List FeedItem) (acc : List (Int × List FeedItem)) :
    Prop :=
  (acc.map Prod.fst).Nodup ∧
  (∀ p ∈ acc, p.2 ≠ [] ∧ p.2.Sublist processed ∧ ∀ it ∈ p.2, it.date.year = p.1) ∧
  (∀ y : Int, (∃ p ∈ acc, p.1 = y) ↔ ∃ it ∈ processed, it.date.year = y)

/-- An article entity with a missing title. -/
def untitledArticle : FeedItem := ⟨"a1", .article, none, ⟨0, 2024⟩, none⟩

/-- An article entity with a title. -/
def titledArticle : FeedItem :=
  ⟨"a2", .article, some "T", ⟨50, 2024⟩, some "/articles/a2"⟩

/-- The single group produced for `titledArticle`. -/
def titledArticleGroup : ArchiveGroup :=
  ⟨2024, [⟨"a2", "T", ⟨50, 2024⟩, .article, "/articles/a2"⟩], 1⟩

/-! ## Theorems -/

/-- C10: `getEnv` skips any tier whose value for the key is the empty string,
returning the value of the highest-priority tier holding a non-empty string and
`none` only if no tier does; and `setRuntimeEnv` stores only string-valued
entries, so a non-string value in the injected runtime configuration never
shadows a lower-priority tier. -/
theorem getEnv_tiers (re me pe : Option (String → Option String))
    (raw : String → Option JSVal) (key : String) :
    getEnv re me pe key
      = firstNonEmptyTier [re.bind (fun f => f key), me.bind (fun f => f key),
          pe.bind (fun f => f key)] ∧
    (raw key = some JSVal.nonstr →
      setRuntimeEnv raw key = none ∧
      getEnv (some (setRuntimeEnv raw)) me pe key = getEnv none me pe key) := by
  refine ⟨rfl, fun h => ⟨?_, ?_⟩⟩
  · simp [setRuntimeEnv, h]
  · simp [getEnv, setRuntimeEnv, h]

/-- Witness for C10 at a concrete non-string runtime entry: the runtime tier is
skipped and the build-time tier's value surfaces. -/
theorem getEnv_tiers_witness :
    envWitnessRaw "K" = some JSVal.nonstr ∧
    setRuntimeEnv envWitnessRaw "K" = none ∧
    getEnv (some (setRuntimeEnv envWitnessRaw)) (some envWitnessMeta) none "K"
      = getEnv none (some envWitnessMeta) none "K" := by
  have h := (getEnv_tiers (some (setRuntimeEnv envWitnessRaw))
    (some envWitnessMeta) none envWitnessRaw "K").2 (by decide)
  exact ⟨by decide, h.1, h.2⟩

/-- Ceiling of `c/400 + w/200` over ℚ, re-expressed as natural division so
that concrete instances compute. -/
theorem ceil_div_formula (c w : ℕ) :
    ⌈(c : ℚ) / 400 + (w : ℚ) / 200⌉ = (((c + 2 * w + 399) / 400 : ℕ) : ℤ) := by
  have hq : (c : ℚ) / 400 + (w : ℚ) / 200 = ((c + 2 * w : ℕ) : ℚ) / 400 := by
    push_cast; ring
  rw [hq, Int.ceil_eq_iff]
  set n := c + 2 * w with hn
  set k := (n + 399) / 400 with hk
  have h1 : 400 * k ≤ n + 399 := by omega
  have h3 : n ≤ 400 * k := by omega
  have h1q : (400 : ℚ) * (k : ℚ) ≤ (n : ℚ) + 399 := by exact_mod_cast h1
  have h3q : (n : ℚ) ≤ 400 * (k : ℚ) := by exact_mod_cast h3
  constructor
  · rw [lt_div_iff₀ (by norm_num : (0 : ℚ) < 400)]
    push_cast
    linarith
  · rw [div_le_iff₀ (by norm_num : (0 : ℚ) < 400)]
    push_cast
    linarith

set_option maxRecDepth 16384 in
/-- C4: the derived reading time equals
`max 1 ⌈cjk_count/400 + word_count/200⌉`, CJK ideographs counted separately
from space-delimited non-CJK words; 800 CJK characters yield 2 and 50 non-CJK
words yield 1. -/
theorem calculateReadingTime_spec :
    (∀ content : String, calculateReadingTime content
        = max 1 (⌈(cjkCount content : ℚ) / 400 + (wordCount content : ℚ) / 200⌉.toNat)) ∧
    calculateReadingTime cjk800 = 2 ∧ calculateReadingTime words50 = 1 := by
  refine ⟨fun content => rfl, ?_, ?_⟩
  · show max 1 (⌈(cjkCount cjk800 : ℚ) / 400 + (wordCount cjk800 : ℚ) / 200⌉.toNat) = 2
    rw [ceil_div_formula, Int.toNat_natCast]
    decide
  · show max 1 (⌈(cjkCount words50 : ℚ) / 400 + (wordCount words50 : ℚ) / 200⌉.toNat) = 1
    rw [ceil_div_formula, Int.toNat_natCast]
    decide

/-- C1 counterexample: a `url` whose origin is `evil.example` (not the
allow-listed origin) but whose path contains the substring `doubanio.com` is
proxied with status 200, not rejected with 403, because the endpoint checks
substring containment rather than the URL origin; and a present-but-empty
`url` — whose origin is likewise not the allow-listed origin (it has none) —
is answered 400, not 403, because the falsy value takes the
missing-parameter branch. -/
theorem proxyImage_counterexample :
    hostOf c1BadUrl = some "evil.example" ∧
    allowedImageHost "evil.example" = false ∧
    (proxyImageGET (some c1BadUrl) c1Fetch).status = 200 ∧
    ¬((proxyImageGET (some c1BadUrl) c1Fetch).status = 403) ∧
    hostOf "" = none ∧
    (proxyImageGET (some "") c1Fetch).status = 400 ∧
    ¬((proxyImageGET (some "") c1Fetch).status = 403) := by decide

/-- C1 (amended): an absent `url` gives 400, and so does an empty `url` value
(both are falsy for the missing-parameter guard); a present, non-empty `url`
not containing the substring `doubanio.com` gives 403; a `url` containing that
substring whose upstream fetch succeeds is answered with status 200, the
upstream bytes, and a `Cache-Control: public, max-age=86400` header. -/
theorem proxyImage_spec (urlParam : Option String)
    (fetchFn : String → Option FetchResponse) :
    (urlParam = none → (proxyImageGET urlParam fetchFn).status = 400) ∧
    (urlParam = some "" → (proxyImageGET urlParam fetchFn).status = 400) ∧
    (∀ u, urlParam = some u → ¬(u = "") → strContains u "doubanio.com" = false →
      (proxyImageGET urlParam fetchFn).status = 403) ∧
    (∀ u r, urlParam = some u → strContains u "doubanio.com" = true →
      fetchFn u = some r → r.ok = true →
      proxyImageGET urlParam fetchFn
        = ⟨200, .bytes r.body, some (r.contentType.getD "image/jpeg"),
            some "public, max-age=86400"⟩) := by
  refine ⟨?_, ?_, ?_, ?_⟩
  · rintro rfl; rfl
  · rintro rfl; rfl
  · rintro u rfl hne hsub
    simp [proxyImageGET, hne, hsub]
  · rintro u r rfl hsub hf hok
    have hne : ¬(u = "") := by
      rintro rfl
      exact absurd hsub (by decide)
    simp [proxyImageGET, hne, hsub, hf, hok]

/-- Witness for C1 (amended) at concrete inputs: missing and empty `url` give
400, a non-doubanio URL gives 403, and a doubanio-hosted URL with a 200
upstream is streamed back with the 24-hour cache header. -/
theorem proxyImage_spec_witness :
    (proxyImageGET none c1Fetch).status = 400 ∧
    (proxyImageGET (some "") c1Fetch).status = 400 ∧
    strContains c1OtherUrl "doubanio.com" = false ∧
    (proxyImageGET (some c1OtherUrl) c1Fetch).status = 403 ∧
    strContains c1GoodUrl "doubanio.com" = true ∧
    proxyImageGET (some c1GoodUrl) c1Fetch
      = ⟨200, .bytes [1, 2, 3], some "image/jpeg", some "public, max-age=86400"⟩ := by
  refine ⟨(proxyImage_spec none c1Fetch).1 rfl,
    (proxyImage_spec (some "") c1Fetch).2.1 rfl,
    by decide,
    (proxyImage_spec (some c1OtherUrl) c1Fetch).2.2.1 c1OtherUrl rfl
      (by decide) (by decide),
    by decide, ?_⟩
  exact (proxyImage_spec (some c1GoodUrl) c1Fetch).2.2.2 c1GoodUrl
    ⟨200, some "image/jpeg", [1, 2, 3]⟩ rfl (by decide) rfl (by decide)

/-- C5 counterexample: a falsy producer value (the JS number 0) populates the
store, yet a second call within the TTL treats the stored entry as a miss
(`if (!data)`, rss.ts:859) and invokes the producer again instead of
returning the cached value. -/
theorem withKVCache_counterexample :
    (withKVCache jsNumberFalsy true false false 0 3600
        (⟨[]⟩ : KVStore Nat) "feed" 0).store
      = ⟨[⟨"feed", 0, 3600⟩]⟩ ∧
    kvLookup 10 (withKVCache jsNumberFalsy true false false 0 3600
        (⟨[]⟩ : KVStore Nat) "feed" 0).store "feed" = some 0 ∧
    (withKVCache jsNumberFalsy true false false 10 3600
        (withKVCache jsNumberFalsy true false false 0 3600
          (⟨[]⟩ : KVStore Nat) "feed" 0).store "feed" 7).fetcherCalls = 1 ∧
    (withKVCache jsNumberFalsy true false false 10 3600
        (withKVCache jsNumberFalsy true false false 0 3600
          (⟨[]⟩ : KVStore Nat) "feed" 0).store "feed" 7).result = 7 := by
  exact ⟨rfl, rfl, rfl, rfl⟩

/-- C5 (amended): the read-through helper bypasses to the producer when the
store is unavailable; a first call for a fresh key runs the producer exactly
once and returns its value even when the write-back fails; a second call
within the TTL window against a store populated with a *truthy* value returns
the cached value without running the producer (a falsy stored value is treated
as a miss); and after an explicit delete the producer runs again. -/
theorem withKVCache_spec {V : Type} (falsy : V → Bool)
    (avail getFails putFails : Bool)
    (now now2 ttl : Nat) (st : KVStore V) (key : String) (v w : V) :
    (avail = false →
      withKVCache falsy avail getFails putFails now ttl st key v = ⟨v, 1, st⟩) ∧
    (kvGet falsy avail getFails now st key = none →
      (withKVCache falsy avail getFails putFails now ttl st key v).result = v ∧
      (withKVCache falsy avail getFails putFails now ttl st key v).fetcherCalls = 1) ∧
    (avail = true → getFails = false →
      kvGet falsy avail getFails now st key = none → now2 < now + ttl →
      falsy v = false →
      (withKVCache falsy avail getFails false now2 ttl
          (withKVCache falsy avail getFails false now ttl st key v).store
          key w).result = v ∧
      (withKVCache falsy avail getFails false now2 ttl
          (withKVCache falsy avail getFails false now ttl st key v).store
          key w).fetcherCalls = 0) ∧
    ((withKVCache falsy true false putFails now2 ttl
        (kvDelete true false st key) key w).result = w ∧
     (withKVCache falsy true false putFails now2 ttl
        (kvDelete true false st key) key w).fetcherCalls = 1) := by
  have hdel : kvLookup now2 (kvDelete true false st key) key = none := by
    have : (kvDelete true false st key).entries.find? (fun e => e.key == key) = none := by
      apply List.find?_eq_none.mpr
      intro e he
      simp only [kvDelete, Bool.and_self, if_true, Bool.not_false] at he
      simp only [List.mem_filter] at he
      simpa using he.2
    simp [kvLookup, this]
  refine ⟨?_, ?_, ?_, ?_⟩
  · rintro rfl
    simp [withKVCache]
  · intro h
    cases avail with
    | false => simp [withKVCache]
    | true => simp [withKVCache, h]
  · rintro rfl rfl h hlt hfv
    have hst : (withKVCache falsy true false false now ttl st key v).store
        = ⟨⟨key, v, now + ttl⟩ :: st.entries.filter (fun e => e.key != key)⟩ := by
      simp [withKVCache, h, kvSet]
    rw [hst]
    have hget : kvGet falsy true false now2
        (⟨⟨key, v, now + ttl⟩ :: st.entries.filter (fun e => e.key != key)⟩ : KVStore V)
        key = some v := by
      simp [kvGet, kvLookup, List.find?, hlt, hfv]
    simp [withKVCache, hget]
  · have hget : kvGet falsy true false now2 (kvDelete true false st key) key = none := by
      simp [kvGet, hdel]
    constructor <;> simp [withKVCache, hget]

/-- Witness for C5 on a concrete store: a fresh `"feed"` key misses, the
store populated with the truthy value 42 hits within the TTL, and a delete
forces a refetch. -/
theorem withKVCache_spec_witness :
    kvGet jsNumberFalsy true false 0 (⟨[]⟩ : KVStore Nat) "feed" = none ∧
    jsNumberFalsy 42 = false ∧
    (withKVCache jsNumberFalsy true false false 0 3600
        (⟨[]⟩ : KVStore Nat) "feed" 42).result = 42 ∧
    (withKVCache jsNumberFalsy true false false 0 3600
        (⟨[]⟩ : KVStore Nat) "feed" 42).fetcherCalls = 1 ∧
    (withKVCache jsNumberFalsy true false false 10 3600
        (withKVCache jsNumberFalsy true false false 0 3600
          (⟨[]⟩ : KVStore Nat) "feed" 42).store "feed" 7).result = 42 ∧
    (withKVCache jsNumberFalsy true false false 10 3600
        (withKVCache jsNumberFalsy true false false 0 3600
          (⟨[]⟩ : KVStore Nat) "feed" 42).store "feed" 7).fetcherCalls = 0 ∧
    (withKVCache jsNumberFalsy true false false 10 3600
        (kvDelete true false (⟨[]⟩ : KVStore Nat) "feed") "feed" 7).result = 7 := by
  have h := withKVCache_spec jsNumberFalsy true false false 0 10 3600
    (⟨[]⟩ : KVStore Nat) "feed" 42 7
  have hfresh : kvGet jsNumberFalsy true false 0 (⟨[]⟩ : KVStore Nat) "feed"
      = none := rfl
  refine ⟨hfresh, rfl, (h.2.1 hfresh).1, (h.2.1 hfresh).2, ?_, ?_, h.2.2.2.1⟩
  · exact (h.2.2.1 rfl rfl hfresh (by omega) rfl).1
  · exact (h.2.2.1 rfl rfl hfresh (by omega) rfl).2

/-- C2 counterexample: `"☆☆☆\n8/10"` has a star-glyph match (three empty
stars anchored at the line end, star count 0) *and* a numeric `8/10` pattern,
yet the extracted rating is `8/10`, not the star count: a star match whose
filled-star count is 0 leaves `rating` falsy and stage (b) still runs. -/
theorem extractRating_counterexample :
    starSearch c2Body.toList = some ['☆', '☆', '☆'] ∧
    countFilledStars ['☆', '☆', '☆'] = 0 ∧
    numSearch c2Body.toList = some (8, 10) ∧
    extractRating c2Body = (some 8, some 10) ∧
    ¬(extractRating c2Body
        = (some ((countFilledStars ['☆', '☆', '☆'] : Nat) : ℚ), some 5)) := by
  decide

/-- C2 (amended): the three rating stages are tried in the fixed order
stars, numeric, vocabulary, and the first stage that succeeds *with a nonzero
value* determines the rating; a stage-(a) star match consisting solely of empty
stars (count 0) — and likewise a numeric match of value 0 — leaves `rating`
falsy, so later stages are still attempted: the numeric stage wins whenever the
star stage is falsy, and the vocabulary stage whenever both earlier stages are
falsy (unmatched or zero-valued). -/
theorem extractRating_precedence (content : String) :
    (∀ stars, starSearch content.toList = some stars →
      ¬(countFilledStars stars = 0) →
      extractRating content = (some (countFilledStars stars : ℚ), some 5)) ∧
    (ratingTruthy (starStageRating content) = false →
      ∀ v den, numSearch content.toList = some (v, den) → ¬(v = 0) →
        extractRating content = (some v, some (den : ℚ))) ∧
    (ratingTruthy (starStageRating content) = false →
      ratingTruthy (numStageRating content) = false →
      ∀ score, wordSearch content = some score →
        extractRating content = (some (score : ℚ), some 5)) := by
  refine ⟨?_, ?_, ?_⟩
  · intro stars h hn
    have h2 : starSearch content.data = some stars := h
    have ht : ratingTruthy (some (countFilledStars stars : ℚ)) = true := by
      show ((countFilledStars stars : ℚ) != 0) = true
      simp only [bne_iff_ne, ne_eq, Nat.cast_eq_zero]
      exact hn
    simp [extractRating, h2, ht]
  · intro hfa v den hnum hv
    have hnum2 : numSearch content.data = some (v, den) := hnum
    have htv : ratingTruthy (some v) = true := by
      show (v != 0) = true
      simp only [bne_iff_ne, ne_eq]
      exact hv
    have hnone : ratingTruthy (none : Option ℚ) = false := rfl
    cases hstar : starSearch content.data with
    | none =>
      simp [extractRating, hstar, hnum2, hnone, htv]
    | some stars =>
      have hz : starStageRating content = some (countFilledStars stars : ℚ) := by
        simp only [starStageRating]
        rw [show starSearch content.toList = some stars from hstar]
      rw [hz] at hfa
      simp [extractRating, hstar, hfa, hnum2, htv]
  · intro hfa hfb score hw
    have hnone : ratingTruthy (none : Option ℚ) = false := rfl
    cases hstar : starSearch content.data with
    | none =>
      cases hnum : numSearch content.data with
      | none => simp [extractRating, hstar, hnum, hw, hnone]
      | some vd =>
        obtain ⟨v, den⟩ := vd
        have hfv : ratingTruthy (some v) = false := by
          have hz : numStageRating content = some v := by
            simp only [numStageRating]
            rw [show numSearch content.toList = some (v, den) from hnum]
            rfl
          rw [hz] at hfb
          exact hfb
        simp [extractRating, hstar, hnum, hw, hnone, hfv]
    | some stars =>
      have hza : ratingTruthy (some (countFilledStars stars : ℚ)) = false := by
        have hz : starStageRating content = some (countFilledStars stars : ℚ) := by
          simp only [starStageRating]
          rw [show starSearch content.toList = some stars from hstar]
        rw [hz] at hfa
        exact hfa
      cases hnum : numSearch content.data with
      | none => simp [extractRating, hstar, hnum, hw, hza]
      | some vd =>
        obtain ⟨v, den⟩ := vd
        have hfv : ratingTruthy (some v) = false := by
          have hz : numStageRating content = some v := by
            simp only [numStageRating]
            rw [show numSearch content.toList = some (v, den) from hnum]
            rfl
          rw [hz] at hfb
          exact hfb
        simp [extractRating, hstar, hnum, hw, hza, hfv]

/-- Witness for C2 (amended): `"推荐: ★★★★"` rates 4/5 through stage (a);
`"评分 4/5"` has no star match and rates 4/5 through stage (b); and
`"0/5 较差"` carries a zero-valued numeric match that falls through to the
vocabulary stage, rating 2/5. -/
theorem extractRating_precedence_witness :
    starSearch c2StarBody.toList = some ['★', '★', '★', '★'] ∧
    extractRating c2StarBody = (some 4, some 5) ∧
    ratingTruthy (starStageRating c2NumBody) = false ∧
    numSearch c2NumBody.toList = some (4, 5) ∧
    extractRating c2NumBody = (some 4, some 5) ∧
    numSearch c2WordBody.toList = some (0, 5) ∧
    ratingTruthy (numStageRating c2WordBody) = false ∧
    wordSearch c2WordBody = some 2 ∧
    extractRating c2WordBody = (some 2, some 5) := by
  refine ⟨by decide, ?_, by decide, by decide, ?_, by decide, by decide,
    by decide, ?_⟩
  · exact ((extractRating_precedence c2StarBody).1 ['★', '★', '★', '★']
      (by decide) (by decide)).trans (by decide)
  · exact ((extractRating_precedence c2NumBody).2.1 (by decide) 4 5
      (by decide) (by decide)).trans (by decide)
  · exact ((extractRating_precedence c2WordBody).2.2 (by decide) (by decide) 2
      (by decide)).trans (by decide)

/-- C3: the metadata status is bucketed from the detected status keyword:
reading/watching/listening variants yield `in_progress`, want variants yield
`wishlist`, and a title containing no status keyword detects as `"done"` and
yields `completed`. -/
theorem doubanStatus_bucketing (item : RSSItem) :
    ((parseDoubanItem item).status = "reading" ∨
        (parseDoubanItem item).status = "watching" ∨
        (parseDoubanItem item).status = "listening" →
      doubanMetadataStatus item = MediaStatus.in_progress) ∧
    ((parseDoubanItem item).status = "wantRead" ∨
        (parseDoubanItem item).status = "wantWatch" →
      doubanMetadataStatus item = MediaStatus.wishlist) ∧
    ((∀ kw ∈ allStatusKeywords, strContains (jsOr item.title "") kw = false) →
      (parseDoubanItem item).status = "done" ∧
      doubanMetadataStatus item = MediaStatus.completed) := by
  refine ⟨?_, ?_, ?_⟩
  · intro h
    unfold doubanMetadataStatus
    rcases h with h | h | h <;> rw [h] <;> decide
  · intro h
    unfold doubanMetadataStatus
    rcases h with h | h <;> rw [h] <;> decide
  · intro h
    have e1 := h "在读" (by decide)
    have e2 := h "reading" (by decide)
    have e3 := h "看过" (by decide)
    have e4 := h "watched" (by decide)
    have e5 := h "在看" (by decide)
    have e6 := h "watching" (by decide)
    have e7 := h "在听" (by decide)
    have e8 := h "listening" (by decide)
    have e9 := h "想读" (by decide)
    have e10 := h "want to read" (by decide)
    have e11 := h "想看" (by decide)
    have e12 := h "want to watch" (by decide)
    have hs : detectStatus (jsOr item.title "") = "done" := by
      simp [detectStatus, STATUS_KEYWORDS, e1, e2, e3, e4, e5, e6, e7, e8,
        e9, e10, e11, e12]
    refine ⟨hs, ?_⟩
    show bucketStatus (parseDoubanItem item).status = MediaStatus.completed
    have hs2 : (parseDoubanItem item).status = "done" := hs
    rw [hs2]
    decide

/-- Witness for C3 at concrete titles: `"最近在读: 三体"` buckets to
in-progress, `"想读 某书"` to wishlist, `"随笔一篇"` to completed. -/
theorem doubanStatus_bucketing_witness :
    doubanMetadataStatus rssItemReading = MediaStatus.in_progress ∧
    doubanMetadataStatus rssItemWant = MediaStatus.wishlist ∧
    (parseDoubanItem rssItemPlain).status = "done" ∧
    doubanMetadataStatus rssItemPlain = MediaStatus.completed := by
  refine ⟨(doubanStatus_bucketing rssItemReading).1 (by decide),
    (doubanStatus_bucketing rssItemWant).2.1 (by decide), ?_, ?_⟩
  · exact ((doubanStatus_bucketing rssItemPlain).2.2 (by decide)).1
  · exact ((doubanStatus_bucketing rssItemPlain).2.2 (by decide)).2

/-- An item contributes a currently-consuming entry only from an in-progress
parsed status. -/
theorem toCurrentItem_status {item : RSSItem} {c : CurrentItem}
    (h : toCurrentItem item = some c) :
    (parseDoubanItem item).status = "reading" ∨
      (parseDoubanItem item).status = "watching" ∨
      (parseDoubanItem item).status = "listening" := by
  simp only [toCurrentItem] at h
  split at h
  · rename_i hcond
    simp only [Bool.or_eq_true, decide_eq_true_eq] at hcond
    tauto
  · exact absurd h (by simp)

/-- The loop of `getCurrentItems` collects, from an accumulator below the cap,
the next `5 - acc.length` contributing items in feed order. -/
theorem getCurrentItemsGo_eq (l : List RSSItem) (acc : List CurrentItem)
    (h : acc.length < 5) :
    getCurrentItemsGo l acc
      = acc ++ (l.filterMap toCurrentItem).take (5 - acc.length) := by
  induction l generalizing acc with
  | nil => simp [getCurrentItemsGo]
  | cons it rest ih =>
    cases hc : toCurrentItem it with
    | none =>
      have h5 : ¬(5 ≤ acc.length) := by omega
      have hfm : List.filterMap toCurrentItem (it :: rest)
          = List.filterMap toCurrentItem rest := by
        simp [List.filterMap_cons, hc]
      simp only [getCurrentItemsGo, hc]
      rw [if_neg h5, ih acc h, hfm]
    | some c =>
      have hfm : List.filterMap toCurrentItem (it :: rest)
          = c :: List.filterMap toCurrentItem rest := by
        simp [List.filterMap_cons, hc]
      have hlen1 : (acc ++ [c]).length = acc.length + 1 := by simp
      by_cases h5 : 5 ≤ (acc ++ [c]).length
      · have ht : 5 - acc.length = 1 := by omega
        simp only [getCurrentItemsGo, hc]
        rw [if_pos h5, hfm, ht]
        simp
      · have h2 : (acc ++ [c]).length < 5 := by omega
        have ht : 5 - acc.length = (5 - (acc ++ [c]).length) + 1 := by omega
        simp only [getCurrentItemsGo, hc]
        rw [if_neg h5, ih _ h2, hfm, ht, List.take_succ_cons, List.append_assoc]
        rfl

/-- C9: `getCurrentItems` returns exactly the first five entries, in feed
order, contributed by in-progress items: it equals `take 5` of the
order-preserving filter, has at most 5 entries, and every entry stems from an
item whose parsed status is reading/watching/listening. -/
theorem getCurrentItems_spec (items : List RSSItem) :
    getCurrentItems items = (items.filterMap toCurrentItem).take 5 ∧
    (getCurrentItems items).length ≤ 5 ∧
    (∀ c ∈ getCurrentItems items, ∃ item ∈ items, toCurrentItem item = some c ∧
      ((parseDoubanItem item).status = "reading" ∨
        (parseDoubanItem item).status = "watching" ∨
        (parseDoubanItem item).status = "listening")) := by
  have heq : getCurrentItems items = (items.filterMap toCurrentItem).take 5 := by
    have h := getCurrentItemsGo_eq items [] (by simp)
    simpa [getCurrentItems] using h
  refine ⟨heq, ?_, ?_⟩
  · rw [heq]
    simp
  · intro c hc
    rw [heq] at hc
    have hc2 := List.mem_of_mem_take hc
    obtain ⟨item, hmem, hsome⟩ := List.mem_filterMap.mp hc2
    exact ⟨item, hmem, hsome, toCurrentItem_status hsome⟩

/-- Witness for C9 on a concrete three-item feed: only the in-progress item
contributes, and its originating item is recovered with an in-progress
status. -/
theorem getCurrentItems_spec_witness :
    getCurrentItems [rssItemReading, rssItemPlain, rssItemWant]
      = [⟨"reading", ⟨0, 1970⟩, none⟩] ∧
    (∃ item ∈ [rssItemReading, rssItemPlain, rssItemWant],
      toCurrentItem item = some ⟨"reading", ⟨0, 1970⟩, none⟩ ∧
      ((parseDoubanItem item).status = "reading" ∨
        (parseDoubanItem item).status = "watching" ∨
        (parseDoubanItem item).status = "listening")) := by
  have h := getCurrentItems_spec [rssItemReading, rssItemPlain, rssItemWant]
  refine ⟨h.1.trans (by decide), ?_⟩
  refine h.2.2 ⟨"reading", ⟨0, 1970⟩, none⟩ ?_
  rw [h.1]
  decide

/-- C6 counterexample: the in-process cache is consulted *before* the use-mock
flag, so a call with the flag set but a populated cache (here populated by a
previous successful aggregation of an empty adapter result) returns the cached
list, not the static fallback dataset. -/
theorem getFeedItems_counterexample :
    (getFeedItems none false feedCfgDoubanOnly (Except.ok []) (Except.ok [])
        (Except.ok [])).newCache = some [] ∧
    getFeedItems (some []) true feedCfgDoubanOnly (Except.ok []) (Except.ok [])
        (Except.ok []) = ⟨[], false, none⟩ ∧
    ¬(getFeedItems (some []) true feedCfgDoubanOnly (Except.ok [])
        (Except.ok []) (Except.ok [])).items = mockFeedItems := by
  refine ⟨?_, rfl, by decide⟩
  simp [getFeedItems, feedCfgDoubanOnly, sortFeedByDateDesc, Except.isOk,
    Except.toBool, Except.toOption, List.mergeSort]

/-- C6 (amended): on an in-process cache miss, if the use-mock flag is set or
no adapter is configured, `getFeedItems` returns the static fallback dataset
without invoking any adapter; and if some configured adapter's invocation
rejects, the whole call returns the same static fallback dataset rather than a
partial result. -/
theorem getFeedItems_fallback (useMock : Bool) (cfg : AdapterConfig)
    (nr dr tr : Except Unit (List FeedItem)) :
    (useMock = true ∨ (cfg.notion = false ∧ cfg.douban = false ∧ cfg.telegram = false) →
      getFeedItems none useMock cfg nr dr tr = ⟨mockFeedItems, false, none⟩) ∧
    (useMock = false →
      ((cfg.notion = true ∧ nr.isOk = false) ∨ (cfg.douban = true ∧ dr.isOk = false) ∨
        (cfg.telegram = true ∧ tr.isOk = false)) →
      getFeedItems none useMock cfg nr dr tr = ⟨mockFeedItems, true, none⟩) := by
  constructor
  · intro h
    rcases h with h | ⟨h1, h2, h3⟩
    · simp [getFeedItems, h]
    · simp [getFeedItems, h1, h2, h3]
  · rintro rfl h
    rcases h with ⟨h1, h2⟩ | ⟨h1, h2⟩ | ⟨h1, h2⟩ <;>
      simp [getFeedItems, h1, h2]

/-- Witness for C6 (amended) at concrete inputs: with no adapter configured
the mock dataset is returned without invocation, and with the media-log
adapter configured but rejecting, the mock dataset is returned. -/
theorem getFeedItems_fallback_witness :
    getFeedItems none false ⟨false, false, false⟩ (Except.ok []) (Except.ok [])
        (Except.ok []) = ⟨mockFeedItems, false, none⟩ ∧
    getFeedItems none true feedCfgDoubanOnly (Except.ok []) (Except.ok [])
        (Except.ok []) = ⟨mockFeedItems, false, none⟩ ∧
    getFeedItems none false feedCfgDoubanOnly (Except.ok [])
        (Except.error ()) (Except.ok []) = ⟨mockFeedItems, true, none⟩ := by
  refine ⟨?_, ?_, ?_⟩
  · exact (getFeedItems_fallback false ⟨false, false, false⟩ (Except.ok [])
      (Except.ok []) (Except.ok [])).1 (Or.inr ⟨rfl, rfl, rfl⟩)
  · exact (getFeedItems_fallback true feedCfgDoubanOnly (Except.ok [])
      (Except.ok []) (Except.ok [])).1 (Or.inl rfl)
  · exact (getFeedItems_fallback false feedCfgDoubanOnly (Except.ok [])
      (Except.error ()) (Except.ok [])).2 rfl (Or.inr (Or.inl ⟨rfl, rfl⟩))

/-- The descending-date comparator is transitive. -/
theorem feedSortLE_trans : ∀ (a b c : FeedItem),
    feedSortLE a b → feedSortLE b c → feedSortLE a c := by
  intro a b c h1 h2
  simp only [feedSortLE, decide_eq_true_eq] at h1 h2 ⊢
  omega

/-- The descending-date comparator is total. -/
theorem feedSortLE_total : ∀ (a b : FeedItem), feedSortLE a b || feedSortLE b a := by
  intro a b
  simp only [feedSortLE, Bool.or_eq_true, decide_eq_true_eq]
  omega

/-- The modelled feed sort is non-increasing by timestamp. -/
theorem sortFeed_sorted (l : List FeedItem) :
    (sortFeedByDateDesc l).Pairwise (fun a b => b.date.time ≤ a.date.time) := by
  have h := List.sorted_mergeSort feedSortLE_trans feedSortLE_total l
  exact h.imp (fun hab => by simpa [feedSortLE] using hab)

/-- Stability of the modelled feed sort: the entities carrying any fixed
timestamp come out in exactly their input order. -/
theorem sortFeed_stable (l : List FeedItem) (t : Int) :
    (sortFeedByDateDesc l).filter (fun x => x.date.time == t)
      = l.filter (fun x => x.date.time == t) := by
  set p : FeedItem → Bool := fun x => x.date.time == t with hp
  have hcpair : (l.filter p).Pairwise (fun a b => feedSortLE a b) := by
    apply List.pairwise_of_forall_mem_list
    intro a ha b hb
    have ha2 := List.of_mem_filter ha
    have hb2 := List.of_mem_filter hb
    simp only [hp, beq_iff_eq] at ha2 hb2
    simp [feedSortLE, ha2, hb2]
  have hsub : (l.filter p).Sublist (sortFeedByDateDesc l) :=
    List.sublist_mergeSort feedSortLE_trans feedSortLE_total hcpair
      (List.filter_sublist l)
  have hcp : (l.filter p).filter p = l.filter p := by
    simp [List.filter_filter, Bool.and_self]
  have h2 : (l.filter p).Sublist ((sortFeedByDateDesc l).filter p) := by
    have h3 := hsub.filter p
    rwa [hcp] at h3
  have hperm : ((sortFeedByDateDesc l).filter p).Perm (l.filter p) :=
    (List.mergeSort_perm l feedSortLE).filter p
  exact (h2.eq_of_length hperm.length_eq.symm).symm

/-- On a cache miss with no mock flag, at least one configured adapter, and
all configured adapters fulfilled, `getFeedItems` sorts the concatenation of
the configured adapters' contributions (in adapter order). -/
theorem getFeedItems_ok (cfg : AdapterConfig) (nr dr tr : List FeedItem)
    (hcfg : cfg.notion = true ∨ cfg.douban = true ∨ cfg.telegram = true) :
    getFeedItems none false cfg (Except.ok nr) (Except.ok dr) (Except.ok tr)
      = ⟨sortFeedByDateDesc ((if cfg.notion then nr else []) ++
            (if cfg.douban then dr else []) ++
            (if cfg.telegram then tr else [])),
         true,
         some (sortFeedByDateDesc ((if cfg.notion then nr else []) ++
            (if cfg.douban then dr else []) ++
            (if cfg.telegram then tr else [])))⟩ := by
  obtain ⟨n, d, t⟩ := cfg
  cases n <;> cases d <;> cases t <;>
    simp_all [getFeedItems, Except.isOk, Except.toBool, Except.toOption]

/-- C7: the aggregated list is ordered non-increasing by publication date, and
entities sharing a timestamp keep the relative order in which the adapters
contributed them (document store, then media log, then channel feed, each in
its own order). -/
theorem getFeedItems_sort_stable (cfg : AdapterConfig)
    (nr dr tr : List FeedItem)
    (hcfg : cfg.notion = true ∨ cfg.douban = true ∨ cfg.telegram = true) :
    ((getFeedItems none false cfg (Except.ok nr) (Except.ok dr)
        (Except.ok tr)).items).Pairwise
      (fun a b => b.date.time ≤ a.date.time) ∧
    ∀ t : Int,
      ((getFeedItems none false cfg (Except.ok nr) (Except.ok dr)
          (Except.ok tr)).items).filter (fun x => x.date.time == t)
        = ((if cfg.notion then nr else []) ++ (if cfg.douban then dr else []) ++
            (if cfg.telegram then tr else [])).filter
            (fun x => x.date.time == t) := by
  rw [getFeedItems_ok cfg nr dr tr hcfg]
  exact ⟨sortFeed_sorted _, fun t => sortFeed_stable _ t⟩

/-- Witness for C7 on a concrete two-item media-log contribution: the output
is re-ordered descending by date, and the timestamp-100 slice keeps its
contribution order. -/
theorem getFeedItems_sort_stable_witness :
    (getFeedItems none false feedCfgDoubanOnly (Except.ok [])
        (Except.ok [wItemA, wItemB]) (Except.ok [])).items = [wItemB, wItemA] ∧
    ((getFeedItems none false feedCfgDoubanOnly (Except.ok [])
        (Except.ok [wItemA, wItemB]) (Except.ok [])).items).Pairwise
      (fun a b => b.date.time ≤ a.date.time) ∧
    ((getFeedItems none false feedCfgDoubanOnly (Except.ok [])
        (Except.ok [wItemA, wItemB]) (Except.ok [])).items).filter
        (fun x => x.date.time == 100) = [wItemA] := by
  have h := getFeedItems_sort_stable feedCfgDoubanOnly [] [wItemA, wItemB] []
    (Or.inr (Or.inl rfl))
  have heq : (getFeedItems none false feedCfgDoubanOnly (Except.ok [])
      (Except.ok [wItemA, wItemB]) (Except.ok [])).items = [wItemB, wItemA] := by
    simp [getFeedItems, feedCfgDoubanOnly, sortFeedByDateDesc, Except.isOk,
      Except.toBool, Except.toOption, List.mergeSort, List.merge, wItemA,
      wItemB, feedSortLE]
  exact ⟨heq, h.1, (h.2 100).trans (by decide)⟩

/-- One grouping step preserves the grouping invariant. -/
theorem addToGroups_inv (processed : List FeedItem)
    (acc : List (Int × List FeedItem)) (it : FeedItem)
    (h : GroupsInv processed acc) :
    GroupsInv (processed ++ [it]) (addToGroups acc it) := by
  obtain ⟨hnd, hent, hiff⟩ := h
  by_cases hmem : acc.any (fun p => p.1 == it.date.year)
  · have hkey : ∃ p ∈ acc, p.1 = it.date.year := by
      simpa using hmem
    rw [addToGroups, if_pos hmem]
    refine ⟨?_, ?_, ?_⟩
    · have hk : (acc.map
          (fun p => if p.1 == it.date.year then (p.1, p.2 ++ [it]) else p)).map
            Prod.fst = acc.map Prod.fst := by
        rw [List.map_map]
        apply List.map_congr_left
        intro p _
        by_cases hpy : p.1 = it.date.year <;> simp [hpy]
      rw [hk]
      exact hnd
    · intro q hq
      obtain ⟨p, hp, hq2⟩ := List.mem_map.mp hq
      obtain ⟨hne, hsub, hyr⟩ := hent p hp
      by_cases hpy : p.1 == it.date.year
      · rw [if_pos hpy] at hq2
        subst hq2
        refine ⟨by simp, List.Sublist.append hsub (List.Sublist.refl [it]), ?_⟩
        intro x hx
        rcases List.mem_append.mp hx with hx | hx
        · exact hyr x hx
        · simp only [List.mem_singleton] at hx
          subst hx
          exact (beq_iff_eq.mp hpy).symm
      · rw [if_neg hpy] at hq2
        subst hq2
        exact ⟨hne, hsub.trans (List.sublist_append_left processed [it]), hyr⟩
    · intro y
      constructor
      · rintro ⟨q, hq, hqy⟩
        obtain ⟨p, hp, hq2⟩ := List.mem_map.mp hq
        have hq1 : p.1 = y := by
          by_cases hpy : p.1 == it.date.year
          · rw [if_pos hpy] at hq2
            rw [← hqy, ← hq2]
          · rw [if_neg hpy] at hq2
            rw [← hqy, ← hq2]
        obtain ⟨x, hx, hxy⟩ := (hiff y).mp ⟨p, hp, hq1⟩
        exact ⟨x, List.mem_append_left _ hx, hxy⟩
      · rintro ⟨x, hx, hxy⟩
        rcases List.mem_append.mp hx with hx | hx
        · obtain ⟨p, hp, hpy⟩ := (hiff y).mpr ⟨x, hx, hxy⟩
          by_cases hc : p.1 = it.date.year
          · refine ⟨(p.1, p.2 ++ [it]), List.mem_map.mpr ⟨p, hp, ?_⟩, hpy⟩
            rw [if_pos (beq_iff_eq.mpr hc)]
          · refine ⟨p, List.mem_map.mpr ⟨p, hp, ?_⟩, hpy⟩
            rw [if_neg (by simpa using hc)]
        · simp only [List.mem_singleton] at hx
          subst hx
          obtain ⟨p, hp, hpy⟩ := hkey
          refine ⟨(p.1, p.2 ++ [x]), ?_, ?_⟩
          · refine List.mem_map.mpr ⟨p, hp, ?_⟩
            rw [if_pos (beq_iff_eq.mpr hpy)]
          · rw [hpy, hxy]
  · rw [addToGroups, if_neg hmem]
    have hnotin : it.date.year ∉ acc.map Prod.fst := by
      intro hin
      obtain ⟨p, hp, hpy⟩ := List.mem_map.mp hin
      exact hmem (List.any_eq_true.mpr ⟨p, hp, by simp [hpy]⟩)
    refine ⟨?_, ?_, ?_⟩
    · rw [List.map_append, List.nodup_append]
      refine ⟨hnd, by simp, ?_⟩
      intro a ha hb
      simp only [List.map_cons, List.map_nil, List.mem_singleton] at hb
      subst hb
      exact hnotin ha
    · intro q hq
      rcases List.mem_append.mp hq with hq | hq
      · obtain ⟨hne, hsub, hyr⟩ := hent q hq
        exact ⟨hne, hsub.trans (List.sublist_append_left processed [it]), hyr⟩
      · simp only [List.mem_singleton] at hq
        subst hq
        refine ⟨by simp, List.sublist_append_right processed [it], ?_⟩
        intro x hx
        simp only [List.mem_singleton] at hx
        subst hx
        rfl
    · intro y
      constructor
      · rintro ⟨q, hq, hqy⟩
        rcases List.mem_append.mp hq with hq | hq
        · obtain ⟨x, hx, hxy⟩ := (hiff y).mp ⟨q, hq, hqy⟩
          exact ⟨x, List.mem_append_left _ hx, hxy⟩
        · simp only [List.mem_singleton] at hq
          subst hq
          exact ⟨it, List.mem_append_right _ (by simp), hqy⟩
      · rintro ⟨x, hx, hxy⟩
        rcases List.mem_append.mp hx with hx | hx
        · obtain ⟨p, hp, hpy⟩ := (hiff y).mpr ⟨x, hx, hxy⟩
          exact ⟨p, List.mem_append_left _ hp, hpy⟩
        · simp only [List.mem_singleton] at hx
          subst hx
          exact ⟨(x.date.year, [x]), List.mem_append_right _ (by simp), hxy⟩

/-- The grouping fold preserves the invariant over the processed prefix. -/
theorem foldl_addToGroups_inv : ∀ (l : List FeedItem)
    (processed : List FeedItem) (acc : List (Int × List FeedItem)),
    GroupsInv processed acc →
    GroupsInv (processed ++ l) (l.foldl addToGroups acc) := by
  intro l
  induction l with
  | nil =>
    intro processed acc h
    simpa using h
  | cons it rest ih =>
    intro processed acc h
    have h3 := ih (processed ++ [it]) (addToGroups acc it)
      (addToGroups_inv processed acc it h)
    simpa [List.append_assoc] using h3

/-- The empty state satisfies the grouping invariant. -/
theorem groupsInv_nil : GroupsInv [] [] := by
  refine ⟨by simp, by simp, by simp⟩

/-- The descending-year comparator is transitive. -/
theorem groupLE_trans : ∀ (a b c : ArchiveGroup),
    groupLE a b → groupLE b c → groupLE a c := by
  intro a b c h1 h2
  simp only [groupLE, decide_eq_true_eq] at h1 h2 ⊢
  omega

/-- The descending-year comparator is total. -/
theorem groupLE_total : ∀ (a b : ArchiveGroup), groupLE a b || groupLE b a := by
  intro a b
  simp only [groupLE, Bool.or_eq_true, decide_eq_true_eq]
  omega

/-- C8 counterexample: an article entity whose title is absent is dropped by
the `item.type === 'article' && item.title` filter, so its publication year
2024 gets no group at all — the claim's "one group per year of every article"
fails for untitled articles. -/
theorem getArchiveGroups_counterexample :
    untitledArticle.type = EntityKind.article ∧
    untitledArticle.date.year = 2024 ∧
    getArchiveGroups [untitledArticle] = [] ∧
    ¬(∃ g ∈ getArchiveGroups [untitledArticle], g.year = 2024) := by
  have hres : getArchiveGroups [untitledArticle] = [] := by
    simp [getArchiveGroups, sortFeedByDateDesc, isTitledArticle,
      untitledArticle, jsTruthy]
  refine ⟨rfl, rfl, hres, ?_⟩
  rw [hres]
  simp

/-- C8 (amended): for every input entity list, the archive view has one group
per year of every *titled* article's publication date (articles lacking a
truthy title are excluded by the filter), groups sorted by year descending,
items within a group sorted by date descending, and each group's count equal
to the number of its items. -/
theorem getArchiveGroups_spec (items : List FeedItem) :
    (getArchiveGroups items).Pairwise (fun a b => b.year ≤ a.year) ∧
    ((getArchiveGroups items).map (fun g => g.year)).Nodup ∧
    (∀ y : Int, (∃ g ∈ getArchiveGroups items, g.year = y) ↔
      ∃ it ∈ items, isTitledArticle it = true ∧ it.date.year = y) ∧
    (∀ g ∈ getArchiveGroups items,
      g.items.Pairwise (fun a b => b.date.time ≤ a.date.time) ∧
      g.count = g.items.length) := by
  have hinv : GroupsInv (sortFeedByDateDesc (items.filter isTitledArticle))
      ((sortFeedByDateDesc (items.filter isTitledArticle)).foldl addToGroups []) := by
    have h := foldl_addToGroups_inv
      (sortFeedByDateDesc (items.filter isTitledArticle)) [] [] groupsInv_nil
    simpa using h
  obtain ⟨hnd, hent, hiff⟩ := hinv
  have hres : getArchiveGroups items
      = (((sortFeedByDateDesc (items.filter isTitledArticle)).foldl addToGroups
          []).map (fun p =>
            (⟨p.1, p.2.map toArchiveItem, p.2.length⟩ : ArchiveGroup))).mergeSort
        groupLE := rfl
  refine ⟨?_, ?_, ?_, ?_⟩
  · rw [hres]
    exact (List.sorted_mergeSort groupLE_trans groupLE_total _).imp
      (fun h => by simpa [groupLE] using h)
  · rw [hres]
    have hperm := (List.mergeSort_perm (((sortFeedByDateDesc
        (items.filter isTitledArticle)).foldl addToGroups []).map (fun p =>
          (⟨p.1, p.2.map toArchiveItem, p.2.length⟩ : ArchiveGroup))) groupLE).map
      (fun g => g.year)
    refine hperm.nodup_iff.mpr ?_
    rw [List.map_map]
    exact hnd
  · intro y
    rw [hres]
    constructor
    · rintro ⟨g, hg, hgy⟩
      obtain ⟨p, hp, hgp⟩ := List.mem_map.mp (List.mem_mergeSort.mp hg)
      have hpy : p.1 = y := by rw [← hgy, ← hgp]
      obtain ⟨x, hx, hxy⟩ := (hiff y).mp ⟨p, hp, hpy⟩
      have hx2 : x ∈ items.filter isTitledArticle := by
        have hx3 : x ∈ sortFeedByDateDesc (items.filter isTitledArticle) := hx
        simpa [sortFeedByDateDesc] using hx3
      have hx4 := List.mem_filter.mp hx2
      exact ⟨x, hx4.1, hx4.2, hxy⟩
    · rintro ⟨x, hx, hxt, hxy⟩
      have hx2 : x ∈ sortFeedByDateDesc (items.filter isTitledArticle) := by
        simp only [sortFeedByDateDesc, List.mem_mergeSort]
        exact List.mem_filter.mpr ⟨hx, hxt⟩
      obtain ⟨p, hp, hpy⟩ := (hiff y).mpr ⟨x, hx2, hxy⟩
      exact ⟨⟨p.1, p.2.map toArchiveItem, p.2.length⟩,
        List.mem_mergeSort.mpr (List.mem_map_of_mem _ hp), hpy⟩
  · intro g hg
    rw [hres] at hg
    obtain ⟨p, hp, hgp⟩ := List.mem_map.mp (List.mem_mergeSort.mp hg)
    obtain ⟨hne, hsub, hyr⟩ := hent p hp
    have hsor : p.2.Pairwise (fun a b => b.date.time ≤ a.date.time) :=
      (sortFeed_sorted (items.filter isTitledArticle)).sublist hsub
    constructor
    · rw [← hgp]
      exact List.pairwise_map.mpr hsor
    · rw [← hgp]
      simp

/-- Witness for C8 on a one-article input: a single 2024 group appears, its
year is recovered from the article, and its count matches its item list. -/
theorem getArchiveGroups_spec_witness :
    getArchiveGroups [titledArticle] = [titledArticleGroup] ∧
    (∃ g ∈ getArchiveGroups [titledArticle], g.year = 2024) ∧
    titledArticleGroup.items.Pairwise (fun a b => b.date.time ≤ a.date.time) ∧
    titledArticleGroup.count = titledArticleGroup.items.length := by
  have h := getArchiveGroups_spec [titledArticle]
  have hres : getArchiveGroups [titledArticle] = [titledArticleGroup] := by
    simp [getArchiveGroups, sortFeedByDateDesc, isTitledArticle, titledArticle,
      jsTruthy, List.mergeSort, addToGroups, toArchiveItem, jsOr,
      titledArticleGroup]
  have hmem : titledArticleGroup ∈ getArchiveGroups [titledArticle] := by
    rw [hres]
    simp
  have h4 := h.2.2.2 titledArticleGroup hmem
  exact ⟨hres, (h.2.2.1 2024).mpr ⟨titledArticle, by simp, by decide, rfl⟩,
    h4.1, h4.2⟩

end Basalt
